import Mathlib

/-!
Verification of CommitGPT (Rust) against its specification.

The definitions below are a shallow embedding of the program in
`src/main.rs` (with `src/args.rs`, `src/config.rs`, `src/error.rs`):
strings are modelled as `String` or as `List Char` (a Rust `char` and a
Lean `Char` are both Unicode scalar values), the interactive loop of
`Cli::run` is modelled as a recursion over the finite list of operator
events it consumes, and the outcomes of the external processes (git, the
completion endpoint) are inputs of the model.
-/

namespace CommitGPT

/-- The error enumeration of `CliError` in src/main.rs (lines 72-96).
`FetchData` carries the response body text. -/
inductive CliError where
  | ChatCompletionBuilder
  | CommandError
  | Config
  | EmptyDiff
  | EmptySelection
  | FetchData (body : String)
  | FromUtf8
  | GitCommit
  | GitDiff
  | Reqwest
  | Serde
deriving DecidableEq, Repr

/-- Message roles, from the openai crate's `ChatCompletionMessageRole`
as used in src/main.rs. -/
inductive ChatCompletionMessageRole where
  | System
  | User
deriving DecidableEq, Repr

/-- A chat message as built in src/main.rs: a role and a content text,
the content kept as its list of Unicode scalar values. The `name` field
of the Rust struct is always `None` in this program and is omitted. -/
structure ChatCompletionMessage where
  role : ChatCompletionMessageRole
  content : List Char
deriving DecidableEq, Repr

/-- `Cli::get_user_message` (src/main.rs lines 277-286): the content is
`format!("```diff\n{}\n```", diff.chars().take(3800).collect::<String>())`.
`diff.chars()` iterates Unicode scalar values, so the embedded excerpt is
`diff.take 3800` on the list of scalar values. -/
def getUserMessage (diff : List Char) : ChatCompletionMessage :=
  ⟨ChatCompletionMessageRole.User,
    ("```diff\n").toList ++ diff.take 3800 ++ ("\n```").toList⟩

/-- The diff excerpt `Cli::get_user_message` embeds:
`diff.chars().take(3800)` (src/main.rs line 282). -/
def diffExcerpt (diff : List Char) : List Char :=
  diff.take 3800

/-- `Cli::get_diff` (src/main.rs lines 210-225): the argument list passed
to the `git` executable. Starts from `["--no-pager", "diff", "--staged"]`,
appends the two whitespace flags when `ignore_space` is set, and appends
the optional path (a single `Option<String>`, pushed as-is). -/
def gitDiffArgs (ignoreSpace : Bool) (path : Option String) : List String :=
  let arguments := ["--no-pager", "diff", "--staged"]
  let arguments :=
    if ignoreSpace then
      arguments ++ ["--ignore-space-change", "--ignore-blank-lines"]
    else arguments
  match path with
  | some p => arguments ++ [p]
  | none => arguments

/-- `Cli::commit` (src/main.rs lines 288-296): the argument list of the
commit invocation. -/
def gitCommitArgs (message : String) : List String :=
  ["commit", "--message", message, "--edit"]

/-- `Cli::commit` (src/main.rs lines 288-296): a non-success exit status
of the commit command is `Err(CliError::GitCommit)`, success is `Ok(())`. -/
def commitResult (exitSuccess : Bool) : Except CliError Unit :=
  if exitSuccess then Except.ok () else Except.error CliError.GitCommit

/-- The completion endpoint's reply as `Cli::get_response` observes it:
an HTTP status code, the body text, and the candidate texts the JSON body
parses to (`none` when the body is not a well-formed `ChatCompletion`). -/
structure HttpResponse where
  status : Nat
  body : String
  choices : Option (List String)
deriving DecidableEq, Repr

/-- The status check and parse of `Cli::get_response` (src/main.rs lines
246-257): a status other than 200 is `Err(CliError::FetchData(body))`
before any JSON parsing; on 200 the body parses to the candidate list or
the parse failure surfaces as `CliError::Serde`. -/
def getResponseResult (resp : HttpResponse) : Except CliError (List String) :=
  if resp.status ≠ 200 then Except.error (CliError.FetchData resp.body)
  else
    match resp.choices with
    | some cs => Except.ok cs
    | none => Except.error CliError.Serde

/-- Rust's `str::split(sep)` on a list of scalar values, as used in
`Cli::run` (src/main.rs line 166): always yields at least one segment;
splitting the empty string yields one empty segment. -/
def splitChar (sep : Char) : List Char → List (List Char)
  | [] => [[]]
  | c :: cs =>
    match splitChar sep cs with
    | [] => [[]]
    | seg :: segs =>
      if c = sep then [] :: seg :: segs else (c :: seg) :: segs

/-- The display label of one candidate, from `Cli::run` (src/main.rs lines
163-168): `message.split('\n') ... .first().unwrap()`. The `[]` branch is
unreachable (`splitChar` never returns `[]`, see `splitChar_length_pos`). -/
def messageLabel (message : List Char) : List Char :=
  match splitChar '\n' message with
  | [] => []
  | seg :: _ => seg

/-- The labels presented by the selection prompt: one per candidate, in
order (src/main.rs lines 163-168). -/
def selectionLabels (response : List String) : List (List Char) :=
  response.map (fun message => messageLabel message.toList)

/-- One operator interaction with the selection prompt: either a pick of
an index (the `Ok(index)` arm of src/main.rs line 178) or a cancellation
(the `Err(_)` arm of line 186). -/
inductive SelectEvent where
  | pick (index : Nat)
  | cancel
deriving DecidableEq, Repr

/-- The interactive loop of `Cli::run` (src/main.rs lines 170-188) as a
recursion over the operator events it consumes. Each event carries the
exit-status outcome the commit command would have if that event is a pick.
Returns the pipeline result once the loop exits (`none` while events run
out with the loop still going) together with the number of successful
commit invocations.
  - cancel: `Err(_) => return Ok(())` — success, nothing committed;
  - pick with an index out of range: `response.get(index)` is `None`, so
    `ok_or(CliError::EmptySelection)?` aborts the run;
  - pick in range with a succeeding commit: `return Ok(())`;
  - pick in range with a failing commit: the loop continues with the same
    `response` and the same label list. -/
def selectCommitLoop (response : List String) :
    List (SelectEvent × Bool) → Option (Except CliError Unit) × Nat
  | [] => (none, 0)
  | (SelectEvent.cancel, _) :: _ => (some (Except.ok ()), 0)
  | (SelectEvent.pick i, commitOk) :: rest =>
    match response.get? i with
    | none => (some (Except.error CliError.EmptySelection), 0)
    | some _ =>
      if commitOk then (some (Except.ok ()), 1)
      else selectCommitLoop response rest

/-- The externally determined outcomes one run of the program consumes:
the config file's `api_key` (absent means the config step fails), the
outcome of `git diff`, the completion endpoint's reply, and the operator's
interaction with the prompt paired with commit exit statuses. -/
structure RunEnv where
  apiKey : Option String
  diffOutcome : Except CliError (List Char)
  httpResponse : HttpResponse
  events : List (SelectEvent × Bool)

/-- `Cli::run` (src/main.rs lines 155-189): read the config, get the diff,
fail `EmptyDiff` on an empty diff BEFORE any completion request, otherwise
perform exactly one completion exchange and enter the selection loop.
Result: the pipeline outcome (`none` while the loop is still going), the
number of completion requests sent, and the number of successful commits. -/
def runPipeline (env : RunEnv) :
    Option (Except CliError Unit) × Nat × Nat :=
  match env.apiKey with
  | none => (some (Except.error CliError.Config), 0, 0)
  | some _ =>
    match env.diffOutcome with
    | Except.error e => (some (Except.error e), 0, 0)
    | Except.ok diff =>
      if diff = [] then (some (Except.error CliError.EmptyDiff), 0, 0)
      else
        match getResponseResult env.httpResponse with
        | Except.error e => (some (Except.error e), 1, 0)
        | Except.ok cands =>
          let r := selectCommitLoop cands env.events
          (r.1, 1, r.2)

/-- The abstract content of the configuration file as the config crate
reads it in `Cli::read_config` (src/main.rs lines 191-208): a set of
optional typed fields. Only `api_key` is consumed by `CliConfig`
(src/main.rs lines 98-101); a `max_tokens` entry in the file, if any, is
ignored by the deserialization. -/
structure FileSettings where
  api_key : Option String
  max_tokens : Option Int
deriving DecidableEq, Repr

/-- `CliConfig` of src/main.rs (lines 98-101): the deserialized settings,
holding only `api_key`. -/
structure CliConfig where
  api_key : String
deriving DecidableEq, Repr

/-- `Cli::read_config` deserialization (src/main.rs line 206): requires
`api_key` and reads nothing else from the file. -/
def readCliConfig (file : FileSettings) : Except CliError CliConfig :=
  match file.api_key with
  | some key => Except.ok ⟨key⟩
  | none => Except.error CliError.Config

/-- The clap parse of the `--tokens` flag (src/main.rs lines 51-52):
`default_value_t = 400`, so the parsed value is the override when one was
given on the command line and 400 otherwise. -/
def tokensArg (override : Option Int) : Int :=
  override.getD 400

/-- The maxTokens value the built completion request carries
(src/main.rs line 234 uses `self.tokens`): the clap-parsed `tokens`
value; the configuration file plays no part in it. -/
def resolvedTokens (override : Option Int) (_file : FileSettings) : Int :=
  tokensArg override

/-- A Boolean substring check on lists of scalar values: does `sub` occur
contiguously inside the second list? Used to state what "embeds verbatim"
means for the user message. -/
def startsWithSeq : List Char → List Char → Bool
  | [], _ => true
  | _ :: _, [] => false
  | a :: s, b :: t => a = b && startsWithSeq s t

/-- `containsSeq sub l = true` iff `sub` occurs contiguously in `l`
(see `containsSeq_iff_occurs`). -/
def containsSeq (sub : List Char) : List Char → Bool
  | [] => sub.isEmpty
  | c :: cs => startsWithSeq sub (c :: cs) || containsSeq sub cs

/-- The first line of a text, stated independently of `splitChar`: the
scalar values up to (not including) the first line break. -/
def firstLineSpec (m : List Char) : List Char :=
  m.takeWhile (fun c => c ≠ '\n')

/-! ## Helper lemmas -/

theorem splitChar_length_pos (sep : Char) (l : List Char) :
    0 < (splitChar sep l).length := by
  cases l with
  | nil => simp [splitChar]
  | cons c cs =>
    cases h : splitChar sep cs with
    | nil => simp [splitChar, h]
    | cons seg segs =>
      simp only [splitChar, h]
      split <;> simp

theorem messageLabel_eq_firstLineSpec (m : List Char) :
    messageLabel m = firstLineSpec m := by
  induction m with
  | nil => rfl
  | cons c cs ih =>
    cases h : splitChar '\n' cs with
    | nil =>
      have hpos := splitChar_length_pos '\n' cs
      rw [h] at hpos
      simp at hpos
    | cons seg segs =>
      have hseg : messageLabel cs = seg := by
        simp [messageLabel, h]
      by_cases hc : c = '\n'
      · subst hc
        simp [messageLabel, splitChar, h, firstLineSpec]
      · have hd : decide (c ≠ '\n') = true := by simpa using hc
        simp only [messageLabel, splitChar, h, if_neg hc, firstLineSpec,
          List.takeWhile, hd]
        rw [hseg] at ih
        simpa [firstLineSpec] using ih

theorem firstLineSpec_of_not_mem (m : List Char) (h : '\n' ∉ m) :
    firstLineSpec m = m := by
  induction m with
  | nil => rfl
  | cons c cs ih =>
    have hc : c ≠ '\n' := fun e => h (e ▸ List.mem_cons_self c cs)
    have hcs : '\n' ∉ cs := fun e => h (List.mem_cons_of_mem c e)
    have hd : decide (c ≠ '\n') = true := by simpa using hc
    simp only [firstLineSpec, List.takeWhile, hd]
    simpa [firstLineSpec] using ih hcs

theorem startsWithSeq_iff (s t : List Char) :
    startsWithSeq s t = true ↔ ∃ r, t = s ++ r := by
  induction s generalizing t with
  | nil => simp [startsWithSeq]
  | cons a s ih =>
    cases t with
    | nil => simp [startsWithSeq]
    | cons b t =>
      simp only [startsWithSeq, Bool.and_eq_true, decide_eq_true_eq, ih]
      constructor
      · rintro ⟨rfl, r, rfl⟩
        exact ⟨r, rfl⟩
      · rintro ⟨r, h⟩
        rw [List.cons_append] at h
        injection h with h1 h2
        exact ⟨h1.symm, r, h2⟩

theorem containsSeq_iff_occurs (sub l : List Char) :
    containsSeq sub l = true ↔ ∃ p q, l = p ++ sub ++ q := by
  induction l with
  | nil =>
    simp only [containsSeq, List.isEmpty_iff]
    constructor
    · rintro rfl
      exact ⟨[], [], rfl⟩
    · rintro ⟨p, q, h⟩
      rcases List.append_eq_nil.mp h.symm with ⟨h1, -⟩
      exact (List.append_eq_nil.mp h1).2
  | cons c cs ih =>
    simp only [containsSeq, Bool.or_eq_true, startsWithSeq_iff, ih]
    constructor
    · rintro (⟨r, h⟩ | ⟨p, q, rfl⟩)
      · exact ⟨[], r, by simpa using h⟩
      · exact ⟨c :: p, q, rfl⟩
    · rintro ⟨p, q, h⟩
      cases p with
      | nil =>
        left
        exact ⟨q, by simpa using h⟩
      | cons x p =>
        right
        rw [List.cons_append, List.cons_append] at h
        injection h with h1 h2
        exact ⟨p, q, h2⟩

/-! ## The claims -/

/-- Claim C1: for every diff text, the diff excerpt embedded in the built
user message is `diff.take 3800` — at most the first 3800 Unicode scalar
values of the diff, a plain prefix with truncation allowed to fall
mid-line — and for any diff longer than 3800 scalar values the excerpt
has exactly 3800 scalar values. -/
theorem user_message_truncates_diff_at_3800 (diff : List Char) :
    (getUserMessage diff).content
      = ("```diff\n").toList ++ diffExcerpt diff ++ ("\n```").toList
    ∧ diffExcerpt diff ++ diff.drop 3800 = diff
    ∧ (diffExcerpt diff).length = min 3800 diff.length
    ∧ (3800 < diff.length → (diffExcerpt diff).length = 3800) := by
  refine ⟨rfl, List.take_append_drop _ _, List.length_take _ _, fun h => ?_⟩
  rw [diffExcerpt, List.length_take]
  omega

/-- Witness for C1 at a concrete 4000-character diff: the embedded
excerpt has exactly 3800 scalar values. -/
theorem user_message_truncation_witness :
    (diffExcerpt (List.replicate 4000 'a')).length = 3800 :=
  (user_message_truncates_diff_at_3800 (List.replicate 4000 'a')).2.2.2
    (by rw [List.length_replicate]; norm_num)

/-- Claim C5: every completion-endpoint response whose HTTP status is not
200 yields `FetchData` carrying the response body text verbatim — before
any parsing, so no candidate list is produced from it. -/
theorem non_200_is_fetch_data_error (resp : HttpResponse)
    (h : resp.status ≠ 200) :
    getResponseResult resp = Except.error (CliError.FetchData resp.body) := by
  simp [getResponseResult, h]

/-- Witness for C5: a concrete 429 response with body "rate limited". -/
theorem non_200_fetch_data_witness :
    getResponseResult ⟨429, "rate limited", none⟩
      = Except.error (CliError.FetchData "rate limited") :=
  non_200_is_fetch_data_error ⟨429, "rate limited", none⟩ (by decide)

/-- Claim C8: the displayed label of a candidate equals the text up to,
but not including, the first line-break character; a candidate with no
line break yields the whole text; the example text
"feat: add x\n\nbody text" yields the label "feat: add x". -/
theorem label_is_first_line (m : List Char) :
    messageLabel m = firstLineSpec m
    ∧ ('\n' ∉ m → messageLabel m = m)
    ∧ selectionLabels ["feat: add x\n\nbody text"]
        = [("feat: add x").toList] := by
  refine ⟨messageLabel_eq_firstLineSpec m, fun h => ?_, ?_⟩
  · rw [messageLabel_eq_firstLineSpec m, firstLineSpec_of_not_mem m h]
  · set_option maxRecDepth 4000 in decide

/-- Claim C2: whenever the extracted diff is the empty string, the run
fails with `EmptyDiff` and the completion client is never invoked — the
completion-request count of the run is 0. -/
theorem empty_diff_fails_without_completion (env : RunEnv) (key : String)
    (hkey : env.apiKey = some key)
    (hdiff : env.diffOutcome = Except.ok []) :
    runPipeline env = (some (Except.error CliError.EmptyDiff), 0, 0) := by
  simp [runPipeline, hkey, hdiff]

/-- Witness for C2: a concrete run with a present api key and an empty
extracted diff. -/
theorem empty_diff_witness :
    runPipeline ⟨some "key", Except.ok [], ⟨200, "", some []⟩, []⟩
      = (some (Except.error CliError.EmptyDiff), 0, 0) :=
  empty_diff_fails_without_completion
    ⟨some "key", Except.ok [], ⟨200, "", some []⟩, []⟩ "key" rfl rfl

/-- Claim C3: a failed commit attempt does not terminate the pipeline or
surface an error — the loop continues with the very same candidate set —
and a subsequent successful commit attempt ends the whole run with `Ok`
(one completion call, one successful commit) and no error to the caller. -/
theorem commit_failure_retries_then_succeeds :
    (∀ (response : List String) (i : Nat) (rest : List (SelectEvent × Bool)),
        i < response.length →
        selectCommitLoop response ((SelectEvent.pick i, false) :: rest)
          = selectCommitLoop response rest)
    ∧ (∀ (key body : String) (diff : List Char) (cands : List String)
        (i j : Nat),
        diff ≠ [] → i < cands.length → j < cands.length →
        runPipeline ⟨some key, Except.ok diff, ⟨200, body, some cands⟩,
            [(SelectEvent.pick i, false), (SelectEvent.pick j, true)]⟩
          = (some (Except.ok ()), 1, 1)) := by
  constructor
  · intro response i rest hi
    simp [selectCommitLoop, List.getElem?_eq_getElem hi]
  · intro key body diff cands i j hdiff hi hj
    simp [runPipeline, hdiff, getResponseResult, selectCommitLoop,
      List.getElem?_eq_getElem hi, List.getElem?_eq_getElem hj]

/-- Witness for C3: two candidates; a failed commit on the first pick
leaves the loop where it started, and a run whose second pick commits
successfully ends in `Ok` with no error. -/
theorem commit_failure_retry_witness :
    selectCommitLoop ["feat: a", "fix: b"] [(SelectEvent.pick 0, false)]
      = selectCommitLoop ["feat: a", "fix: b"] []
    ∧ runPipeline ⟨some "key", Except.ok ['x'],
        ⟨200, "", some ["feat: a", "fix: b"]⟩,
        [(SelectEvent.pick 0, false), (SelectEvent.pick 1, true)]⟩
      = (some (Except.ok ()), 1, 1) :=
  ⟨commit_failure_retries_then_succeeds.1 ["feat: a", "fix: b"] 0 []
      (by simp),
   commit_failure_retries_then_succeeds.2 "key" "" ['x']
      ["feat: a", "fix: b"] 0 1 (by simp) (by simp) (by simp)⟩

/-- Claim C4: cancelling the interactive selection prompt (after any run
of failed, in-range pick attempts) terminates the pipeline successfully:
the result is `Ok`, no error is raised, and no commit succeeds. A whole
run whose only interaction is a cancellation ends `Ok` with zero
successful commits. -/
theorem cancel_is_success_without_commit :
    (∀ (response : List String) (pre : List (SelectEvent × Bool))
        (b : Bool) (rest : List (SelectEvent × Bool)),
        (∀ e ∈ pre, e.2 = false
          ∧ ∃ i, e.1 = SelectEvent.pick i ∧ i < response.length) →
        selectCommitLoop response (pre ++ (SelectEvent.cancel, b) :: rest)
          = (some (Except.ok ()), 0))
    ∧ (∀ (key body : String) (diff : List Char) (cands : List String)
        (b : Bool),
        diff ≠ [] →
        runPipeline ⟨some key, Except.ok diff, ⟨200, body, some cands⟩,
            [(SelectEvent.cancel, b)]⟩
          = (some (Except.ok ()), 1, 0)) := by
  constructor
  · intro response pre
    induction pre with
    | nil =>
      intro b rest _
      simp [selectCommitLoop]
    | cons e pre ih =>
      intro b rest hpre
      obtain ⟨hfalse, i, hpick, hi⟩ := hpre e (List.mem_cons_self e pre)
      obtain ⟨ev, cb⟩ := e
      simp only at hfalse hpick
      subst hfalse
      subst hpick
      rw [List.cons_append]
      simp [selectCommitLoop, List.getElem?_eq_getElem hi]
      exact ih b rest (fun e he => hpre e (List.mem_cons_of_mem _ he))
  · intro key body diff cands b hdiff
    simp [runPipeline, hdiff, getResponseResult, selectCommitLoop]

/-- Witness for C4: a failed in-range pick followed by a cancellation
leaves the loop with `Ok` and zero successful commits, and a run that is
cancelled immediately ends `Ok` with zero successful commits. -/
theorem cancel_success_witness :
    selectCommitLoop ["feat: a"]
        [(SelectEvent.pick 0, false), (SelectEvent.cancel, true)]
      = (some (Except.ok ()), 0)
    ∧ runPipeline ⟨some "key", Except.ok ['x'], ⟨200, "", some ["feat: a"]⟩,
        [(SelectEvent.cancel, false)]⟩
      = (some (Except.ok ()), 1, 0) :=
  ⟨cancel_is_success_without_commit.1 ["feat: a"]
      [(SelectEvent.pick 0, false)] true []
      (by intro e he; simp at he; subst he; exact ⟨rfl, 0, rfl, by simp⟩),
   cancel_is_success_without_commit.2 "key" "" ['x'] ["feat: a"] false
      (by simp)⟩

/-- Claim C6 counterexample: with no invocation-time override and a
configuration file carrying max_tokens = 700, the resolved value is the
clap built-in default 400; `decide` renders the claimed equality with the
file value false. -/
theorem resolved_tokens_ignore_file_counterexample :
    resolvedTokens none ⟨some "key", some 700⟩ = 400
    ∧ decide (resolvedTokens none ⟨some "key", some 700⟩ = 700) = false :=
  ⟨rfl, by decide⟩

/-- Claim C6 amended: the resolved maxTokens equals the invocation-time
override when one is present (override 100 resolves to 100, whatever the
file holds) and the clap built-in default 400 when no override is given;
the file-sourced value is never consulted, because `Cli::read_config`
deserializes only api_key from the file. -/
theorem resolved_tokens_precedence (override : Option Int)
    (file : FileSettings) :
    resolvedTokens override file = override.getD 400
    ∧ resolvedTokens (some 100) file = 100
    ∧ resolvedTokens none file = 400
    ∧ readCliConfig ⟨some "key", some 400⟩ = Except.ok ⟨"key"⟩ :=
  ⟨rfl, rfl, rfl, rfl⟩

/-- Claim C7 counterexample: a reason text "REASON" is not embedded in
the built user message — the message built from the empty diff contains
no occurrence of it (`containsSeq` decides contiguous occurrence, see
`containsSeq_iff_occurs`); the program has no reason argument at all. -/
theorem user_message_embeds_no_reason :
    containsSeq (("REASON").toList) (getUserMessage []).content = false := by
  decide

/-- Claim C7 amended: the built user message is a function of the diff
alone — role User, content exactly the fenced character-truncated diff
excerpt; no free-text reason exists at invocation, so none is embedded. -/
theorem user_message_function_of_diff (diff : List Char) :
    getUserMessage diff
      = ⟨ChatCompletionMessageRole.User,
          ("```diff\n").toList ++ diffExcerpt diff ++ ("\n```").toList⟩ :=
  rfl

/-- Claim C9 counterexample: with the path filter "src/main.rs" the git
argument list ends with the path itself; no "--" separator element is
present anywhere in it. -/
theorem git_diff_args_no_separator_counterexample :
    gitDiffArgs true (some "src/main.rs")
      = ["--no-pager", "diff", "--staged", "--ignore-space-change",
          "--ignore-blank-lines", "src/main.rs"]
    ∧ (gitDiffArgs true (some "src/main.rs")).contains "--" = false :=
  ⟨rfl, by decide⟩

/-- Claim C9 amended: the version-control tool is invoked with a staged
diff request; when ignoreWhitespace is true the arguments include both
--ignore-space-change and --ignore-blank-lines; and when the (single,
optional) path filter is present the arguments end with that path
appended as-is — with no "--" separator. -/
theorem git_diff_args_shape (ignoreSpace : Bool) (path : Option String) :
    ("diff" ∈ gitDiffArgs ignoreSpace path
      ∧ "--staged" ∈ gitDiffArgs ignoreSpace path)
    ∧ (ignoreSpace = true →
        "--ignore-space-change" ∈ gitDiffArgs ignoreSpace path
        ∧ "--ignore-blank-lines" ∈ gitDiffArgs ignoreSpace path)
    ∧ (∀ p, path = some p →
        gitDiffArgs ignoreSpace path = gitDiffArgs ignoreSpace none ++ [p]) := by
  cases ignoreSpace <;> cases path <;>
    simp [gitDiffArgs]

/-- Witness for C9 as amended: with whitespace-ignoring on and the path
"src", both whitespace flags are present and the argument list is the
no-path list with "src" appended. -/
theorem git_diff_args_shape_witness :
    ("--ignore-space-change" ∈ gitDiffArgs true (some "src")
      ∧ "--ignore-blank-lines" ∈ gitDiffArgs true (some "src"))
    ∧ gitDiffArgs true (some "src") = gitDiffArgs true none ++ ["src"] :=
  ⟨(git_diff_args_shape true (some "src")).2.1 rfl,
   (git_diff_args_shape true (some "src")).2.2 "src" rfl⟩

/-- Claim C10: label extraction is total — splitting any candidate text
on a line break always yields at least one segment, so taking the first
segment never fails, and the label of the empty candidate is empty. -/
theorem label_extraction_total :
    (∀ m : List Char, 0 < (splitChar '\n' m).length)
    ∧ messageLabel [] = []
    ∧ selectionLabels [""] = [[]] :=
  ⟨fun m => splitChar_length_pos '\n' m, rfl, rfl⟩

end CommitGPT
